import Mathlib

/-
Verification development for catrix (src/catrix.c), a terminal "matrix rain"
animation: a column simulation, a grid builder, a diff renderer and a resize
coordinator.  Each C function used by the claims is shallowly embedded below;
C float arithmetic on the small quantities involved is modelled over ℚ (the
concrete constants appearing in the claims are exactly representable and all
comparisons are exact there), C ints over ℤ/ℕ, and fallible malloc/realloc
calls are driven by explicit allocation oracles.
-/

namespace Catrix

/-- Render cell, from `struct Cell`: a printable char (or space) and a style
code 0..5 (0=blank, 1=tail dark, 2=tail mid, 3=tail bright, 4=neck, 5=head). -/
structure Cell where
  ch : Char
  style : Nat
deriving DecidableEq, Repr

/-- Matrix column, from `struct blue_pill`.  `rsi` is the per-row glyph
buffer; `none` models a NULL pointer (after a failed reseed malloc). -/
structure BluePill where
  rsi : Option (List Char)
  speed : ℚ
  lifespan : ℤ
  cycle : ℚ
  bold : Bool
deriving DecidableEq, Repr

instance : Inhabited BluePill := ⟨⟨none, 0, 0, 0, false⟩⟩

/-- From `rand_range`: `lo + rand() % (hi - lo + 1)`, with the guard
`if (hi < lo) return lo`.  `x` is the (nonnegative) value of `rand()`. -/
def rand_range (lo hi : ℤ) (x : ℕ) : ℤ :=
  if hi < lo then lo else lo + (x : ℤ) % (hi - lo + 1)

/-- From `pick_lifespan_for_column`: `min_len = (int)(rows * 0.30f)`, clamped
up to 1.  For terminal-range `rows` (≤ 65535, from `unsigned short ws_row`)
the float product truncates to exactly `⌊3·rows/10⌋`: `0.30f` exceeds 3/10 by
about `1.2e-8` relatively, which dominates the rounding error of the product,
so the truncation never crosses an integer boundary. -/
def min_len (rows : ℕ) : ℤ := max 1 (3 * (rows : ℤ) / 10)

/-- From `pick_lifespan_for_column`: `max_len = (int)(rows * 0.90f)`, clamped
up to `min_len`.  As for `min_len`, for terminal-range `rows` the float
truncation equals `⌊9·rows/10⌋` (`0.90f` sits less than half an ulp below
9/10, so products at exact integers round back up to the integer). -/
def max_len (rows : ℕ) : ℤ := max (min_len rows) (9 * (rows : ℤ) / 10)

/-- From `pick_lifespan_for_column`: the new trail length is drawn by
`rand_range(min_len, max_len)`; `x` is the `rand()` draw. -/
def pick_lifespan (rows : ℕ) (x : ℕ) : ℤ := rand_range (min_len rows) (max_len rows) x

/-- The style classifier of `build_cur_grid` (the if/else chain over
`r`, `cycle` and `lifespan`), with C's int-to-float promotions made explicit
as casts into ℚ. -/
def styleAt (cycle : ℚ) (lifespan : ℤ) (bold : Bool) (r : ℤ) : ℕ :=
  if (r : ℚ) - 3 > cycle - (lifespan : ℚ) ∧ (r : ℚ) < cycle - 2 then
    (if bold then 3 else 2)
  else if (r : ℚ) - 1 > cycle - (lifespan : ℚ) ∧ (r : ℚ) < cycle - 2 then 2
  else if (r : ℚ) > cycle - (lifespan : ℚ) ∧ (r : ℚ) < cycle - 2 then 1
  else if cycle > (r : ℚ) + 1 ∧ cycle < (r : ℚ) + 2 then 4
  else if cycle > (r : ℚ) ∧ cycle < (r : ℚ) + 1 then 5
  else 0

/-- Read `matrix[c].rsi[r]`.  A `none` buffer is a NULL pointer: the C program
would dereference it (undefined behaviour); the model totalises the read with
a space, and claim C4 tracks buffer validity separately. -/
def glyphAt (col : BluePill) (r : ℕ) : Char :=
  match col.rsi with
  | some l => l.getD r ' '
  | none => ' '

/-- One cell of `build_cur_grid`: blank cells get a space and style 0, styled
cells copy the column's glyph at that row. -/
def cellFor (col : BluePill) (r : ℕ) : Cell :=
  let s := styleAt col.cycle col.lifespan col.bold (r : ℤ)
  if s = 0 then ⟨' ', 0⟩ else ⟨glyphAt col r, s⟩

/-- From `build_cur_grid`: the row-major current grid (`for r < ROWS`,
`for c < COLS`); the column list plays the role of the `matrix` array, so the
logical column count is `matrix.length`. -/
def build_cur_grid (matrix : List BluePill) (rows : ℕ) : List Cell :=
  (List.range rows).flatMap fun r => matrix.map fun col => cellFor col r

/-- The random draws one `simulate_matrix` iteration makes for one column:
per-row flicker outcomes (`some g` = the 1% mutation fired, writing `g`), and
the reseed draws (speed, `rand()` for the lifespan, glyph refill, bold flag)
together with the outcome of the reseed's `malloc`. -/
structure Rand where
  flicker : List (Option Char)
  newSpeed : ℚ
  lifeRand : ℕ
  newGlyphs : List Char
  newBold : Bool
  allocOk : Bool

/-- The flicker pass of `simulate_matrix`: each row's glyph is replaced when
its 1% draw fired. -/
def flickered (rsi : List Char) (f : List (Option Char)) : List Char :=
  rsi.enum.map fun p => (f.getD p.1 none).getD p.2

/-- One column's step of `simulate_matrix`: flicker, `cycle += speed`, and if
`cycle > rows + lifespan` the in-place reseed — which first frees the old
glyph buffer, then mallocs a new one; on malloc failure the C code `continue`s
with `rsi == NULL` and the already-advanced `cycle`, skipping the speed,
lifespan and bold refresh. -/
def simulateColumn (rows : ℕ) (rd : Rand) (col : BluePill) : BluePill :=
  let rsi1 : Option (List Char) := col.rsi.map fun l => flickered l rd.flicker
  let cycle1 := col.cycle + col.speed
  if cycle1 > (rows : ℚ) + (col.lifespan : ℚ) then
    if rd.allocOk then
      { rsi := some rd.newGlyphs
        speed := rd.newSpeed
        lifespan := pick_lifespan rows rd.lifeRand
        cycle := 0
        bold := rd.newBold }
    else
      { col with rsi := none, cycle := cycle1 }
  else
    { col with rsi := rsi1, cycle := cycle1 }

/-- From `simulate_matrix`: every column takes one step; `rds c` supplies the
random draws consumed while processing column `c`. -/
def simulate_matrix (rows : ℕ) (rds : ℕ → Rand) (m : List BluePill) : List BluePill :=
  m.enum.map fun p => simulateColumn rows (rds p.1) p.2

/-- A column has a usable glyph buffer for a `rows`-row grid: the `rsi`
pointer is non-NULL and holds one glyph per row (the allocation size used by
`alloc_matrix` and the reseed in `simulate_matrix`). -/
def hasValidGlyphBuffer (rows : ℕ) (col : BluePill) : Bool :=
  match col.rsi with
  | some l => l.length = rows
  | none => false

/-- From `tty_winsize`: probe stdout, stdin, stderr and then /dev/tty; accept
the first ioctl result whose reported columns and rows are both nonzero.
`probes` lists the outcome of each probe in order (`none` = the ioctl failed
or the fd could not be opened; `some (cols, rows)` = the reported winsize).
The C loop's early `break` when /dev/tty cannot be opened only shortens the
probe list, which the list encoding already expresses. -/
def tty_winsize (probes : List (Option (ℕ × ℕ))) : Option (ℕ × ℕ) :=
  probes.findSome? fun p =>
    match p with
    | some wr => if wr.1 ≠ 0 ∧ wr.2 ≠ 0 then some wr else none
    | none => none

/-- The sizes produced by `get_term_size_now`: the physical terminal size and
the derived logical grid size. -/
structure TermSize where
  physCols : ℕ
  physRows : ℕ
  cols : ℕ
  rows : ℕ
deriving DecidableEq, Repr

/-- From `get_term_size_now`: fall back to 80×24 when `tty_winsize` fails,
then derive logical columns as `(PHYS_COLS + 1) / 2` and logical rows as
`PHYS_ROWS`. -/
def get_term_size_now (probes : List (Option (ℕ × ℕ))) : TermSize :=
  match tty_winsize probes with
  | none => { physCols := 80, physRows := 24, cols := (80 + 1) / 2, rows := 24 }
  | some wr => { physCols := wr.1, physRows := wr.2, cols := (wr.1 + 1) / 2, rows := wr.2 }

/-- The global state touched by the resize path.  `matrixGen` counts how many
times a column-set allocation has been installed in `matrix`, so
`matrixGen` changing means the previously active column set was freed and
replaced.  `prevValid`/`curValid` record whether the `prev_grid`/`cur_grid`
pointers still point at live allocations (false = dangling). -/
structure World where
  cols : ℕ
  rows : ℕ
  matrixGen : ℕ
  gridCap : ℕ
  outCap : ℕ
  prevValid : Bool
  curValid : Bool
  forceFull : Bool
  resizePending : Bool
deriving DecidableEq, Repr

/-- Outcomes of the fallible allocations one resize attempt can make:
`alloc_matrix`'s mallocs, the two grid `realloc`s and the output-buffer
`realloc`. -/
structure AllocOracle where
  matrixOk : Bool
  prevGridOk : Bool
  curGridOk : Bool
  outbufOk : Bool
deriving DecidableEq, Repr

/-- From `ensure_buffers`.  When `cells > grid_cap_cells` both grids are
reallocated; on failure of either realloc the C code does
`free(pg); free(cg); return -1;`, so a grid whose realloc succeeded has its
old block released by `realloc` and its new block released by `free`, leaving
the corresponding global pointer dangling (`...Valid := false`); a grid whose
realloc failed keeps its old block.  On success `prev_grid` is poisoned and
the output buffer is grown to `cells * 64 + 4096` bytes. -/
def ensure_buffers (o : AllocOracle) (cols rows : ℕ) (w : World) : World × Bool :=
  let cells := cols * rows
  if cells > w.gridCap then
    if o.prevGridOk && o.curGridOk then
      let w1 := { w with prevValid := true, curValid := true, gridCap := cells }
      let need := cells * 64 + 4096
      if need > w1.outCap then
        if o.outbufOk then ({ w1 with outCap := need }, true) else (w1, false)
      else (w1, true)
    else
      ({ w with prevValid := w.prevValid && !o.prevGridOk
                curValid := w.curValid && !o.curGridOk }, false)
  else
    let need := cells * 64 + 4096
    if need > w.outCap then
      if o.outbufOk then ({ w with outCap := need }, true) else (w, false)
    else (w, true)

/-- From `apply_resize_if_needed`, driven by the probe outcomes and the
allocation oracle.  Returns the new state and the C return value.  Note the
order of operations in the source: the freshly allocated column set replaces
the old one (which is freed) and `COLS`/`ROWS` are updated BEFORE
`ensure_buffers` runs, and every exit path clears `resize_pending`. -/
def apply_resize_if_needed (o : AllocOracle) (probes : List (Option (ℕ × ℕ)))
    (w : World) : World × ℤ :=
  if !w.resizePending then (w, 0)
  else
    let sz := get_term_size_now probes
    if sz.cols = 0 ∨ sz.rows = 0 then
      ({ w with resizePending := false }, -1)
    else if !o.matrixOk then
      ({ w with resizePending := false }, -1)
    else
      let w1 := { w with matrixGen := w.matrixGen + 1, cols := sz.cols, rows := sz.rows }
      let eb := ensure_buffers o sz.cols sz.rows w1
      if eb.2 then
        ({ eb.1 with forceFull := true, resizePending := false }, 1)
      else
        ({ eb.1 with resizePending := false }, -1)

/-- One atomic piece of the byte stream `render_diff` appends to `outbuf`:
the clear+home prefix, a cursor move, an SGR style activation, a glyph byte,
or a space byte. -/
inductive Out where
  | clearHome : Out
  | move : ℕ → ℕ → Out
  | sgr : ℕ → Out
  | glyph : Char → Out
  | space : Out
deriving DecidableEq, Repr

/-- From the `SGR_MAP` array (index 0 is NULL in C: no SGR is ever emitted
for style 0, modelled by the empty string). -/
def SGR_MAP : List String :=
  ["", "\x1b[38;5;22m", "\x1b[38;5;40m", "\x1b[38;5;82m",
   "\x1b[38;5;194m", "\x1b[1;38;5;15m"]

/-- Decimal digit count of `n`, i.e. the length `snprintf("%d", n)` produces
for nonnegative `n`.  Spelled as a comparison chain so that it evaluates by
kernel reduction; the final catch-all is the decimal digit string itself. -/
def digits10 (n : ℕ) : ℕ :=
  if n < 10 then 1
  else if n < 100 then 2
  else if n < 1000 then 3
  else if n < 10000 then 4
  else if n < 100000 then 5
  else (Nat.toDigits 10 n).length

/-- Byte length of each emitted piece: `"\x1b[2J\x1b[H"` is 7 bytes, a cursor
move `"\x1b[%d;%dH"` is `4 + digits(row) + digits(col)` bytes, an SGR string
has its literal length, and glyphs/spaces are single bytes. -/
def outLen : Out → ℕ
  | Out.clearHome => 7
  | Out.move r c => 4 + digits10 r + digits10 c
  | Out.sgr s => (SGR_MAP.getD s "").length
  | Out.glyph _ => 1
  | Out.space => 1

/-- Total byte length of an emission list. -/
def outsLen (l : List Out) : ℕ := (l.map outLen).sum

/-- From `render_diff`: a cell pair needs an update when the full-repaint
flag is set, the styles differ, or the styles agree on a non-blank style but
the glyphs differ (negation of the `unchanged` test in the source). -/
def needUpdate (ff : Bool) (cc pp : Cell) : Bool :=
  ff || cc.style != pp.style || (cc.style != 0 && cc.ch != pp.ch)

/-- The run-extension loop of `render_diff`: how many further cell pairs
after the run's first cell both need an update and share the run's style. -/
def runLen (ff : Bool) (s : ℕ) : List (Cell × Cell) → ℕ
  | [] => 0
  | (cc, pp) :: rest =>
    if needUpdate ff cc pp && cc.style == s then 1 + runLen ff s rest else 0

/-- The run-emission loop of `render_diff`: for each cell of the run (logical
index `x` counting from the run's start) emit a space for a blank run or the
cell's glyph otherwise, then a trailing space when the physical column
`2*x + 2` still fits in the physical width. -/
def emitRun (physCols s : ℕ) : ℕ → List Cell → List Out
  | _, [] => []
  | x, cell :: rest =>
    (if s = 0 then Out.space else Out.glyph cell.ch) ::
      ((if 2 * x + 2 ≤ physCols then [Out.space] else []) ++
        emitRun physCols s (x + 1) rest)

/-- The per-row scan of `render_diff` over the zipped (current, previous)
cell pairs, starting at logical column `i`: skip unchanged cells; at a cell
needing an update open a run, emit one cursor move to physical column
`2*start + 1` (1-based), one SGR when the run's style is non-blank, the run's
cells, and continue after the run. -/
def scanRow (ff : Bool) (physCols rowIdx : ℕ) : ℕ → List (Cell × Cell) → List Out
  | _, [] => []
  | i, (cc, pp) :: rest =>
    if needUpdate ff cc pp then
      let k := runLen ff cc.style rest
      Out.move (rowIdx + 1) (2 * i + 1) ::
        ((if cc.style = 0 then [] else [Out.sgr cc.style]) ++
          (emitRun physCols cc.style i (cc :: (rest.take k).map Prod.fst) ++
            scanRow ff physCols rowIdx (i + 1 + k) (rest.drop k)))
    else scanRow ff physCols rowIdx (i + 1) rest
termination_by _ l => l.length
decreasing_by
  · simp only [List.length_cons, List.length_drop]
    omega
  · simp only [List.length_cons]
    omega

/-- Row `r` of a row-major grid with `cols` columns. -/
def rowOf (g : List Cell) (cols r : ℕ) : List Cell :=
  (g.drop (r * cols)).take cols

/-- From `render_diff` (the emission part): the clear+home prefix when
`force_full` is set, followed by the per-row scans. -/
def render_diff (ff : Bool) (physCols cols rows : ℕ)
    (cur prev : List Cell) : List Out :=
  (if ff then [Out.clearHome] else []) ++
    (List.range rows).flatMap fun r =>
      scanRow ff physCols r 0 (List.zip (rowOf cur cols r) (rowOf prev cols r))

/-- The renderer's history: the `prev_grid` snapshot. -/
structure RenderState where
  prev : List Cell
deriving DecidableEq, Repr

/-- A full `render_diff` call: emit the diff stream, then commit the current
grid as the new previous grid (the final `memcpy`). -/
def renderFrame (ff : Bool) (physCols cols rows : ℕ) (cur : List Cell)
    (st : RenderState) : List Out × RenderState :=
  (render_diff ff physCols cols rows cur st.prev, ⟨cur⟩)

/-! Helper lemmas -/

lemma min_len_le_max_len (rows : ℕ) : min_len rows ≤ max_len rows := le_max_left _ _

lemma pick_lifespan_ge (rows x : ℕ) : min_len rows ≤ pick_lifespan rows x := by
  have h := min_len_le_max_len rows
  unfold pick_lifespan rand_range
  rw [if_neg (by omega)]
  have hm : 0 ≤ (x : ℤ) % (max_len rows - min_len rows + 1) :=
    Int.emod_nonneg _ (by omega)
  omega

lemma pick_lifespan_le (rows x : ℕ) : pick_lifespan rows x ≤ max_len rows := by
  have h := min_len_le_max_len rows
  unfold pick_lifespan rand_range
  rw [if_neg (by omega)]
  have hm : (x : ℤ) % (max_len rows - min_len rows + 1) < max_len rows - min_len rows + 1 :=
    Int.emod_lt_of_pos _ (by omega)
  omega

lemma styleAt_le_five (cycle : ℚ) (lifespan : ℤ) (bold : Bool) (r : ℤ) :
    styleAt cycle lifespan bold r ≤ 5 := by
  unfold styleAt
  repeat' split
  all_goals omega

lemma build_cur_grid_length (m : List BluePill) (rows : ℕ) :
    (build_cur_grid m rows).length = rows * m.length := by
  unfold build_cur_grid
  rw [List.length_flatMap]
  simp [Function.comp_def, List.map_const', List.sum_replicate, smul_eq_mul]

lemma build_cur_grid_style_le (m : List BluePill) (rows : ℕ) (cell : Cell)
    (hcell : cell ∈ build_cur_grid m rows) : cell.style ≤ 5 := by
  unfold build_cur_grid at hcell
  rw [List.mem_flatMap] at hcell
  obtain ⟨r, -, hm⟩ := hcell
  rw [List.mem_map] at hm
  obtain ⟨col, -, rfl⟩ := hm
  unfold cellFor
  dsimp only
  split
  · exact Nat.zero_le 5
  · exact styleAt_le_five _ _ _ _

lemma needUpdate_self (x : Cell) : needUpdate false x x = false := by
  simp [needUpdate]

lemma scanRow_zip_self (p rowIdx : ℕ) (l : List Cell) :
    ∀ i : ℕ, scanRow false p rowIdx i (l.zip l) = [] := by
  induction l with
  | nil => intro i; rw [List.zip_nil_left, scanRow]
  | cons x xs ih =>
    intro i
    rw [List.zip_cons_cons, scanRow]
    simp only [needUpdate_self, if_false, Bool.false_eq_true]
    exact ih (i + 1)

lemma tty_winsize_accepts_only_nonzero (probes : List (Option (ℕ × ℕ))) :
    ∀ wr, tty_winsize probes = some wr → 1 ≤ wr.1 ∧ 1 ≤ wr.2 := by
  induction probes with
  | nil => intro wr h; simp [tty_winsize] at h
  | cons p ps ih =>
    intro wr h
    unfold tty_winsize at h
    rw [List.findSome?_cons] at h
    match p with
    | none => exact ih wr h
    | some q =>
      dsimp only at h
      by_cases hq : q.1 ≠ 0 ∧ q.2 ≠ 0
      · rw [if_pos hq] at h
        cases h
        omega
      · rw [if_neg hq] at h
        exact ih wr h

/-! Claim theorems -/

/-- Claim C7: for every list of columns (any real-valued head positions) and
any row count, `build_cur_grid` produces exactly rows·columns cells, each
carrying one of the six style classes 0..5. -/
theorem c7_build_grid_complete_valid (m : List BluePill) (rows : ℕ) :
    (build_cur_grid m rows).length = rows * m.length ∧
      ∀ cell ∈ build_cur_grid m rows, cell.style ≤ 5 :=
  ⟨build_cur_grid_length m rows, fun cell hc => build_cur_grid_style_le m rows cell hc⟩

/-- Witness for C7 at a concrete 1-column, 2-row instance. -/
theorem c7_build_grid_complete_valid_witness :
    (build_cur_grid [⟨some ['A', 'B'], 1/4, 2, 3/2, false⟩] 2).length = 2 * 1 ∧
      ∀ cell ∈ build_cur_grid [⟨some ['A', 'B'], 1/4, 2, 3/2, false⟩] 2, cell.style ≤ 5 :=
  c7_build_grid_complete_valid [⟨some ['A', 'B'], 1/4, 2, 3/2, false⟩] 2

/-- Claim C5: rendering the same current grid twice in a row with no
simulation advance in between and the full-repaint flag unset on the second
call emits an empty byte stream on the second call, because the first call
committed the current grid as the new previous grid. -/
theorem c5_render_twice_emits_nothing (ff : Bool) (physCols cols rows : ℕ)
    (cur : List Cell) (st : RenderState) :
    (renderFrame false physCols cols rows cur
        (renderFrame ff physCols cols rows cur st).2).1 = [] := by
  show render_diff false physCols cols rows cur cur = []
  unfold render_diff
  rw [if_neg (by simp)]
  rw [List.nil_append]
  apply List.flatMap_eq_nil_iff.mpr
  intro r _
  exact scanRow_zip_self physCols r (rowOf cur cols r) 0

/-- Claim C10: `tty_winsize` accepts an ioctl report only when both reported
dimensions are nonzero, and `get_term_size_now` otherwise falls back to
80×24, so the derived logical dimensions are always at least 1×1 (making the
zero-size branch of `apply_resize_if_needed` and the zero-extent skip of the
main loop unreachable). -/
theorem c10_term_size_always_positive (probes : List (Option (ℕ × ℕ))) :
    ((tty_winsize probes).elim True fun wr => 1 ≤ wr.1 ∧ 1 ≤ wr.2) ∧
      1 ≤ (get_term_size_now probes).cols ∧ 1 ≤ (get_term_size_now probes).rows := by
  unfold get_term_size_now
  rcases h : tty_winsize probes with - | wr
  · simp
  · have hpos := tty_winsize_accepts_only_nonzero probes wr h
    refine ⟨by simp [hpos], by dsimp only; omega, by dsimp only; exact hpos.2⟩

/-! Reseed lemmas (C3) -/

lemma simulateColumn_reseed (rows : ℕ) (rd : Rand) (col : BluePill)
    (h1 : ((rows : ℚ) + (col.lifespan : ℚ)) < col.cycle)
    (h2 : 0 ≤ col.speed) (h3 : rd.allocOk = true) :
    simulateColumn rows rd col =
      ⟨some rd.newGlyphs, rd.newSpeed, pick_lifespan rows rd.lifeRand, 0, rd.newBold⟩ := by
  have hgt : (rows : ℚ) + (col.lifespan : ℚ) < col.cycle + col.speed := by linarith
  unfold simulateColumn
  rw [if_pos hgt, if_pos h3]

lemma simulate_matrix_getD (rows : ℕ) (rds : ℕ → Rand) (m : List BluePill) (c : ℕ)
    (hc : c < m.length) :
    (simulate_matrix rows rds m).getD c default =
      simulateColumn rows (rds c) (m.getD c default) := by
  unfold simulate_matrix
  have hc1 : c < (m.enum.map fun p => simulateColumn rows (rds p.1) p.2).length := by
    simp [List.enum_length, hc]
  rw [List.getD_eq_getElem _ _ hc1, List.getElem_map, List.getElem_enum,
    List.getD_eq_getElem _ _ hc]

/-- Modelled from the spec: the trail-length interval the spec states for a
reseed, `[max(1, round(0.30·rows)), round(0.90·rows)]`, with `round` the
usual round-half-up.  Defined from the spec's words (not the source, which
truncates) to compare the claimed interval with the source's. -/
def spec_min_trail (rows : ℕ) : ℤ := max 1 (round ((3 : ℚ)/10 * rows))

/-- Modelled from the spec: upper end of the spec's claimed trail-length
interval, `round(0.90·rows)`. -/
def spec_max_trail (rows : ℕ) : ℤ := round ((9 : ℚ)/10 * rows)

/-- The concrete column used to refute C3's interval: 6-row grid, trail
length 1, head position 8 (past `rows + lifespan = 7`). -/
def c3_col : BluePill := ⟨some ['a', 'a', 'a', 'a', 'a', 'a'], 1/10, 1, 8, false⟩

/-- Random draws for the C3 counterexample: the reseed succeeds and the
lifespan draw is the low end of `rand_range` (`rand() % n = 0`). -/
def c3_rd : Rand := ⟨[], 1/5, 0, ['b', 'b', 'b', 'b', 'b', 'b'], false, true⟩

/-- Counterexample to claim C3 as stated: on a 6-row grid, a column past
`rows + trailLength` is reseeded by the next tick with `headPosition = 0`,
but the new trail length can be 1, which lies outside the claimed interval
`[max(1, round(0.30·6)), round(0.90·6)] = [2, 5]` — the code truncates
`6·0.30f` to 1 where the spec's rounding gives 2. -/
theorem c3_counterexample_trail_below_claimed_interval :
    ((6 : ℚ) + (c3_col.lifespan : ℚ)) < c3_col.cycle ∧
    ((simulate_matrix 6 (fun _ => c3_rd) [c3_col]).getD 0 default).cycle = 0 ∧
    ((simulate_matrix 6 (fun _ => c3_rd) [c3_col]).getD 0 default).lifespan = 1 ∧
    ¬ (spec_min_trail 6 ≤
          ((simulate_matrix 6 (fun _ => c3_rd) [c3_col]).getD 0 default).lifespan ∧
        ((simulate_matrix 6 (fun _ => c3_rd) [c3_col]).getD 0 default).lifespan ≤
          spec_max_trail 6) := by
  norm_num [simulate_matrix, simulateColumn, c3_col, c3_rd, pick_lifespan, rand_range,
    min_len, max_len, spec_min_trail, spec_max_trail, round_eq, List.enum]

/-- Claim C3 as amended: for any column whose headPosition exceeds
`rows + trailLength` (and whose speed is nonnegative, as all speeds produced
by the code are), a successful-allocation `advanceTick` resets that column's
headPosition to 0 and assigns a new trailLength within the code's interval
`[max(1, trunc(0.30·rows)), max(that, trunc(0.90·rows))]` — truncated, not
rounded, bounds. -/
theorem c3_amended_reseed_resets_within_truncated_interval
    (rows : ℕ) (rds : ℕ → Rand) (m : List BluePill) (c : ℕ)
    (hc : c < m.length)
    (h1 : ((rows : ℚ) + ((m.getD c default).lifespan : ℚ)) < (m.getD c default).cycle)
    (h2 : 0 ≤ (m.getD c default).speed)
    (h3 : (rds c).allocOk = true) :
    ((simulate_matrix rows rds m).getD c default).cycle = 0 ∧
      min_len rows ≤ ((simulate_matrix rows rds m).getD c default).lifespan ∧
      ((simulate_matrix rows rds m).getD c default).lifespan ≤ max_len rows := by
  rw [simulate_matrix_getD rows rds m c hc,
    simulateColumn_reseed rows (rds c) (m.getD c default) h1 h2 h3]
  exact ⟨rfl, pick_lifespan_ge rows (rds c).lifeRand, pick_lifespan_le rows (rds c).lifeRand⟩

/-- Witness for the amended C3 at the concrete column of the counterexample. -/
theorem c3_amended_reseed_witness :
    0 < [c3_col].length ∧
    ((6 : ℚ) + (([c3_col].getD 0 default).lifespan : ℚ)) < ([c3_col].getD 0 default).cycle ∧
    0 ≤ ([c3_col].getD 0 default).speed ∧
    ((fun _ : ℕ => c3_rd) 0).allocOk = true ∧
    (((simulate_matrix 6 (fun _ => c3_rd) [c3_col]).getD 0 default).cycle = 0 ∧
      min_len 6 ≤ ((simulate_matrix 6 (fun _ => c3_rd) [c3_col]).getD 0 default).lifespan ∧
      ((simulate_matrix 6 (fun _ => c3_rd) [c3_col]).getD 0 default).lifespan ≤ max_len 6) :=
  ⟨by norm_num, by norm_num [c3_col], by norm_num [c3_col], rfl,
    c3_amended_reseed_resets_within_truncated_interval 6 (fun _ => c3_rd) [c3_col] 0
      (by norm_num) (by norm_num [c3_col]) (by norm_num [c3_col]) rfl⟩

/-! C2: band classification at headPosition 1.5, trailLength 2 -/

/-- Column 0 of the spec's end-to-end scenario: `headPosition = 1.5`,
`trailLength = 2` (exactly representable in float, so the ℚ model's
comparisons agree with the C float comparisons). -/
def c2_col0 : BluePill := ⟨some ['A', 'B'], 1/4, 2, 3/2, false⟩

/-- Filler columns for the 4×2 scenario grid (head still at the top). -/
def c2_blank : BluePill := ⟨some [' ', ' '], 1/4, 1, 0, false⟩

/-- The 4-column, 2-row scenario grid of claim C2. -/
def c2_matrix : List BluePill := [c2_col0, c2_blank, c2_blank, c2_blank]

/-- Counterexample to claim C2 as stated: in the 4×2 scenario with
`headPosition = 1.5` and `trailLength = 2`, row 0 of column 0 is classified
as Near-Head (style 4), not Head (style 5) as the claim asserts — the head
band `cycle ∈ (r, r+1)` is satisfied at row 1, not row 0. -/
theorem c2_counterexample_row0_not_head :
    ((build_cur_grid c2_matrix 2).getD 0 ⟨' ', 0⟩).style = 4 ∧
      ¬ ((build_cur_grid c2_matrix 2).getD 0 ⟨' ', 0⟩).style = 5 := by
  norm_num [build_cur_grid, c2_matrix, c2_col0, c2_blank, cellFor, styleAt, glyphAt,
    List.range_succ]

/-- Claim C2 as amended: in the 4×2 scenario with `headPosition = 1.5` and
`trailLength = 2` for column 0, the grid builder assigns row 1 the Head
style (5) and row 0 the Near-Head style (4), per the band-boundary rule. -/
theorem c2_amended_row1_head_row0_nearhead :
    ((build_cur_grid c2_matrix 2).getD 4 ⟨' ', 0⟩).style = 5 ∧
      ((build_cur_grid c2_matrix 2).getD 0 ⟨' ', 0⟩).style = 4 := by
  norm_num [build_cur_grid, c2_matrix, c2_col0, c2_blank, cellFor, styleAt, glyphAt,
    List.range_succ]

/-! C4: reseed allocation failure leaves a column without a buffer -/

/-- The concrete column for C4: 4-row grid, head past `rows + lifespan`. -/
def c4_col : BluePill := ⟨some ['a', 'a', 'a', 'a'], 1/2, 2, 9, false⟩

/-- Random draws for C4: the reseed's glyph-buffer `malloc` fails. -/
def c4_rd : Rand := ⟨[], 1/5, 0, [], false, false⟩

/-- Claim C4 is violated by the code: before the tick the column has a valid
glyph buffer of length `rows`; `simulate_matrix` frees that buffer before
the replacement `malloc`, so when the allocation fails the `continue` path
leaves the column with a NULL glyph buffer (`rsi = none`) — partial state the
grid builder will then dereference. -/
theorem c4_alloc_failure_leaves_null_buffer :
    hasValidGlyphBuffer 4 c4_col = true ∧
    ((simulate_matrix 4 (fun _ => c4_rd) [c4_col]).getD 0 default).rsi = none ∧
    hasValidGlyphBuffer 4
      ((simulate_matrix 4 (fun _ => c4_rd) [c4_col]).getD 0 default) = false := by
  norm_num [simulate_matrix, simulateColumn, c4_col, c4_rd, hasValidGlyphBuffer, List.enum]

/-! C1: partial failure during a pending resize -/

/-- Stable pre-resize state for C1: 10×10 logical grid, live buffers sized
for it, a resize pending. -/
def c1_world : World := ⟨10, 10, 0, 100, 100 * 64 + 4096, true, true, false, true⟩

/-- The terminal grew to 40×20 (logical 20×20). -/
def c1_probes : List (Option (ℕ × ℕ)) := [some (40, 20)]

/-- Allocation outcomes for C1: the new column set allocates, the `prev_grid`
realloc succeeds, the `cur_grid` realloc fails. -/
def c1_oracle : AllocOracle := ⟨true, true, false, true⟩

/-- Claim C1 is violated by the code: when the grid-buffer reallocation fails
after the new column set was allocated, `apply_resize_if_needed` has already
freed the old column set, installed the new one and updated `COLS`/`ROWS`
(`matrixGen` and the dimensions change), and `ensure_buffers`'s failure path
frees the successfully reallocated `prev_grid` block, leaving the global
pointer dangling (`prevValid = false`) — the old state is not left unchanged
and authoritative. -/
theorem c1_failed_resize_corrupts_state :
    (apply_resize_if_needed c1_oracle c1_probes c1_world).2 = -1 ∧
    (apply_resize_if_needed c1_oracle c1_probes c1_world).1.matrixGen ≠ c1_world.matrixGen ∧
    (apply_resize_if_needed c1_oracle c1_probes c1_world).1.cols ≠ c1_world.cols ∧
    (apply_resize_if_needed c1_oracle c1_probes c1_world).1.rows ≠ c1_world.rows ∧
    (apply_resize_if_needed c1_oracle c1_probes c1_world).1.prevValid = false := by
  decide

/-! C9: zero-row report during a pending resize -/

/-- A terminal session in which every winsize probe reports 0 rows (stdout,
stdin, stderr report 80×0; /dev/tty cannot be opened). -/
def zero_row_probes : List (Option (ℕ × ℕ)) := [some (80, 0), some (80, 0), some (80, 0), none]

lemma ensure_buffers_preserves (o : AllocOracle) (cols rows : ℕ) (w : World) :
    (ensure_buffers o cols rows w).1.cols = w.cols ∧
    (ensure_buffers o cols rows w).1.rows = w.rows ∧
    (ensure_buffers o cols rows w).1.matrixGen = w.matrixGen := by
  unfold ensure_buffers
  simp only [apply_ite Prod.fst, apply_ite World.cols, apply_ite World.rows,
    apply_ite World.matrixGen, ite_self]
  simp

lemma apply_resize_pending_false (o : AllocOracle) (probes : List (Option (ℕ × ℕ)))
    (w : World) : (apply_resize_if_needed o probes w).1.resizePending = false := by
  unfold apply_resize_if_needed
  split
  · next h =>
    rw [Bool.not_eq_eq_eq_not, Bool.not_true] at h
    exact h
  · simp only [apply_ite Prod.fst, apply_ite World.resizePending, ite_self]

/-- Stable 60×30 state with a resize pending, for the C9 counterexample. -/
def c9_world : World := ⟨60, 30, 0, 1800, 1800 * 64 + 4096, true, true, false, true⟩

/-- All allocations succeed in the C9 counterexample. -/
def c9_oracle : AllocOracle := ⟨true, true, true, true⟩

/-- Counterexample to claim C9 as stated: with every probe reporting 0 rows
during a pending resize, the coordinator does NOT remain in PendingResize at
the old size — `tty_winsize` rejects the zero-row reports, so
`get_term_size_now` falls back to 80×24 and the resize is applied at logical
40×24 with the pending flag cleared and a full repaint forced. -/
theorem c9_counterexample_zero_rows_resizes_to_fallback :
    c9_world.resizePending = true ∧ c9_world.cols = 60 ∧
    (apply_resize_if_needed c9_oracle zero_row_probes c9_world).1.resizePending = false ∧
    (apply_resize_if_needed c9_oracle zero_row_probes c9_world).1.cols = 40 ∧
    (apply_resize_if_needed c9_oracle zero_row_probes c9_world).1.rows = 24 ∧
    (apply_resize_if_needed c9_oracle zero_row_probes c9_world).1.forceFull = true := by
  decide

/-- Claim C9 as amended: when the terminal reports 0 rows during a pending
resize, the size query treats the report as a failed probe and falls back to
80×24; the coordinator never observes a zero size and does not stay pending:
the pending flag is always cleared, and whenever the column-set allocation
succeeds the logical dimensions become the fallback 40×24. -/
theorem c9_amended_zero_rows_falls_back
    (w : World) (o : AllocOracle)
    (hp : w.resizePending = true) (hm : o.matrixOk = true) :
    (apply_resize_if_needed o zero_row_probes w).1.resizePending = false ∧
    (apply_resize_if_needed o zero_row_probes w).1.cols = 40 ∧
    (apply_resize_if_needed o zero_row_probes w).1.rows = 24 := by
  refine ⟨apply_resize_pending_false o zero_row_probes w, ?_⟩
  obtain ⟨wc, wr, wg, wgc, woc, wpv, wcv, wff, wrp⟩ := w
  simp only at hp
  subst hp
  have hsz : get_term_size_now zero_row_probes = ⟨80, 24, 40, 24⟩ := by decide
  unfold apply_resize_if_needed
  rw [hsz, hm]
  simp only [Bool.not_true, Bool.false_eq_true, if_false, Bool.not_false, if_true]
  rw [if_neg (by norm_num)]
  have hpre := ensure_buffers_preserves o 40 24 ⟨40, 24, wg + 1, wgc, woc, wpv, wcv, wff, true⟩
  split
  · exact ⟨hpre.1, hpre.2.1⟩
  · exact ⟨hpre.1, hpre.2.1⟩

/-- Witness for the amended C9 at the concrete state of the counterexample
(but with the cur-grid realloc failing, to show the conclusion holds on a
failure path too). -/
theorem c9_amended_zero_rows_falls_back_witness :
    c9_world.resizePending = true ∧ (⟨true, true, false, true⟩ : AllocOracle).matrixOk = true ∧
    ((apply_resize_if_needed ⟨true, true, false, true⟩ zero_row_probes c9_world).1.resizePending = false ∧
      (apply_resize_if_needed ⟨true, true, false, true⟩ zero_row_probes c9_world).1.cols = 40 ∧
      (apply_resize_if_needed ⟨true, true, false, true⟩ zero_row_probes c9_world).1.rows = 24) :=
  ⟨rfl, rfl, c9_amended_zero_rows_falls_back c9_world ⟨true, true, false, true⟩ rfl rfl⟩

/-! C6: run merging emits one move and one SGR -/

/-- Recogniser for cursor-positioning commands in the emitted stream. -/
def isMoveCmd : Out → Bool
  | Out.move _ _ => true
  | _ => false

/-- Recogniser for style-activation (SGR) commands in the emitted stream. -/
def isStyleCmd : Out → Bool
  | Out.sgr _ => true
  | _ => false

lemma emitRun_countP_move (p s : ℕ) :
    ∀ (x : ℕ) (cells : List Cell), (emitRun p s x cells).countP isMoveCmd = 0 := by
  intro x cells
  induction cells generalizing x with
  | nil => rfl
  | cons cell rest ih =>
    rw [emitRun, List.countP_cons, List.countP_append, ih (x + 1)]
    split <;> split <;> simp [isMoveCmd, List.countP_cons]

lemma emitRun_countP_style (p s : ℕ) :
    ∀ (x : ℕ) (cells : List Cell), (emitRun p s x cells).countP isStyleCmd = 0 := by
  intro x cells
  induction cells generalizing x with
  | nil => rfl
  | cons cell rest ih =>
    rw [emitRun, List.countP_cons, List.countP_append, ih (x + 1)]
    split <;> split <;> simp [isStyleCmd, List.countP_cons]

/-- Claim C6: on a one-row, two-column grid whose two horizontally adjacent
cells both need an update and share the same non-blank styleClass while their
glyphs differ, the diff renderer emits a single run covering both positions —
the whole output is one cursor move, one SGR activation, and the run's cell
bytes — so exactly one cursor-positioning command and exactly one
style-activation command. -/
theorem c6_adjacent_same_style_merge_one_run (p : ℕ) (a b : Char) (s : ℕ) (pa pb : Cell)
    (hs : s ≠ 0) (_hab : a ≠ b)
    (h1 : needUpdate false ⟨a, s⟩ pa = true)
    (h2 : needUpdate false ⟨b, s⟩ pb = true) :
    render_diff false p 2 1 [⟨a, s⟩, ⟨b, s⟩] [pa, pb]
        = Out.move 1 1 :: Out.sgr s :: emitRun p s 0 [⟨a, s⟩, ⟨b, s⟩] ∧
    (render_diff false p 2 1 [⟨a, s⟩, ⟨b, s⟩] [pa, pb]).countP isMoveCmd = 1 ∧
    (render_diff false p 2 1 [⟨a, s⟩, ⟨b, s⟩] [pa, pb]).countP isStyleCmd = 1 := by
  have heq : render_diff false p 2 1 [⟨a, s⟩, ⟨b, s⟩] [pa, pb]
      = Out.move 1 1 :: Out.sgr s :: emitRun p s 0 [⟨a, s⟩, ⟨b, s⟩] := by
    unfold render_diff rowOf
    rw [if_neg (by simp)]
    simp only [List.range_succ, List.range_zero, List.nil_append, List.flatMap_cons,
      List.flatMap_nil, List.append_nil, Nat.zero_mul, List.drop_zero]
    rw [List.take_of_length_le (by simp), List.take_of_length_le (by simp)]
    rw [List.zip_cons_cons, List.zip_cons_cons, List.zip_nil_left]
    simp only [scanRow, runLen, h1, h2, hs, if_true]
    simp [hs]
    rw [scanRow]
  refine ⟨heq, ?_, ?_⟩ <;> rw [heq]
  · simp [List.countP_cons, isMoveCmd, isStyleCmd, emitRun_countP_move]
  · simp [List.countP_cons, isMoveCmd, isStyleCmd, emitRun_countP_style]

/-- Witness for C6: both cells changed from a blank previous frame, style
Head (5), glyphs A and B, physical width 80. -/
theorem c6_adjacent_same_style_merge_one_run_witness :
    (5 ≠ 0 ∧ 'A' ≠ 'B' ∧
      needUpdate false ⟨'A', 5⟩ ⟨' ', 0⟩ = true ∧
      needUpdate false ⟨'B', 5⟩ ⟨' ', 0⟩ = true) ∧
    (render_diff false 80 2 1 [⟨'A', 5⟩, ⟨'B', 5⟩] [⟨' ', 0⟩, ⟨' ', 0⟩]
        = Out.move 1 1 :: Out.sgr 5 :: emitRun 80 5 0 [⟨'A', 5⟩, ⟨'B', 5⟩] ∧
      (render_diff false 80 2 1 [⟨'A', 5⟩, ⟨'B', 5⟩] [⟨' ', 0⟩, ⟨' ', 0⟩]).countP isMoveCmd = 1 ∧
      (render_diff false 80 2 1 [⟨'A', 5⟩, ⟨'B', 5⟩] [⟨' ', 0⟩, ⟨' ', 0⟩]).countP isStyleCmd = 1) :=
  ⟨⟨by decide, by decide, by decide, by decide⟩,
    c6_adjacent_same_style_merge_one_run 80 'A' 'B' 5 ⟨' ', 0⟩ ⟨' ', 0⟩
      (by decide) (by decide) (by decide) (by decide)⟩

/-! C8: the emitted byte stream fits the pre-sized output buffer -/

lemma outsLen_cons (a : Out) (l : List Out) : outsLen (a :: l) = outLen a + outsLen l := by
  simp [outsLen]

lemma outsLen_append (l1 l2 : List Out) : outsLen (l1 ++ l2) = outsLen l1 + outsLen l2 := by
  simp [outsLen]

lemma digits10_le_five (n : ℕ) (h : n ≤ 99999) : digits10 n ≤ 5 := by
  unfold digits10
  split_ifs <;> omega

lemma sgr_getD_length_le (s : ℕ) : (SGR_MAP.getD s "").length ≤ 12 := by
  match s with
  | 0 => decide
  | 1 => decide
  | 2 => decide
  | 3 => decide
  | 4 => decide
  | 5 => decide
  | n + 6 =>
    rw [List.getD_eq_default]
    · decide
    · simp [SGR_MAP]

lemma runLen_le (ff : Bool) (s : ℕ) (l : List (Cell × Cell)) : runLen ff s l ≤ l.length := by
  induction l with
  | nil => simp [runLen]
  | cons x rest ih =>
    obtain ⟨cc, pp⟩ := x
    rw [runLen]
    split
    · have := ih
      simp only [List.length_cons]
      omega
    · simp

lemma emitRun_outsLen (p s : ℕ) :
    ∀ (x : ℕ) (cells : List Cell), outsLen (emitRun p s x cells) ≤ 2 * cells.length := by
  intro x cells
  induction cells generalizing x with
  | nil => simp [emitRun, outsLen]
  | cons cell rest ih =>
    rw [emitRun, outsLen_cons, outsLen_append]
    have h1 : outLen (if s = 0 then Out.space else Out.glyph cell.ch) = 1 := by
      split <;> rfl
    have h2 : outsLen (if 2 * x + 2 ≤ p then [Out.space] else []) ≤ 1 := by
      split <;> simp [outsLen, outLen]
    have h3 := ih (x + 1)
    simp only [List.length_cons]
    omega

/-- Each run costs at most one 14-byte cursor move plus one 12-byte SGR plus
2 bytes per covered cell, so a row scan starting at logical index `i` stays
within 28 bytes per cell.  The `32768`/`65534` side conditions reflect the
`unsigned short` range of the winsize fields the dimensions come from. -/
lemma scanRow_outsLen (ff : Bool) (p rowIdx : ℕ) (hrow : rowIdx ≤ 65534) :
    ∀ (n : ℕ) (l : List (Cell × Cell)) (i : ℕ), l.length ≤ n → i + l.length ≤ 32768 →
      outsLen (scanRow ff p rowIdx i l) ≤ 28 * l.length := by
  intro n
  induction n with
  | zero =>
    intro l i hl _
    have : l = [] := List.length_eq_zero.mp (Nat.le_zero.mp hl)
    subst this
    rw [scanRow]
    simp [outsLen]
  | succ n ih =>
    intro l i hl hi
    match l with
    | [] =>
      rw [scanRow]
      simp [outsLen]
    | (cc, pp) :: rest =>
      rw [scanRow]
      split
      · have hk : runLen ff cc.style rest ≤ rest.length := runLen_le ff cc.style rest
        rw [outsLen_cons, outsLen_append, outsLen_append]
        have hmove : outLen (Out.move (rowIdx + 1) (2 * i + 1)) ≤ 14 := by
          have hd1 : digits10 (rowIdx + 1) ≤ 5 := digits10_le_five _ (by omega)
          have hd2 : digits10 (2 * i + 1) ≤ 5 := by
            apply digits10_le_five
            simp only [List.length_cons] at hi
            omega
          show 4 + digits10 (rowIdx + 1) + digits10 (2 * i + 1) ≤ 14
          omega
        have hsgr : outsLen (if cc.style = 0 then [] else [Out.sgr cc.style]) ≤ 12 := by
          split
          · simp [outsLen]
          · simpa [outsLen, outLen] using sgr_getD_length_le cc.style
        have hrun : outsLen (emitRun p cc.style i
            (cc :: (rest.take (runLen ff cc.style rest)).map Prod.fst)) ≤
            2 * (1 + runLen ff cc.style rest) := by
          have h := emitRun_outsLen p cc.style i
            (cc :: (rest.take (runLen ff cc.style rest)).map Prod.fst)
          have hlen : (cc :: (rest.take (runLen ff cc.style rest)).map Prod.fst).length
              = 1 + runLen ff cc.style rest := by
            simp only [List.length_cons, List.length_map, List.length_take]
            omega
          rw [hlen] at h
          exact h
        have hrec : outsLen (scanRow ff p rowIdx (i + 1 + runLen ff cc.style rest)
            (rest.drop (runLen ff cc.style rest))) ≤
            28 * (rest.length - runLen ff cc.style rest) := by
          have hlen : (rest.drop (runLen ff cc.style rest)).length
              = rest.length - runLen ff cc.style rest := by
            simp [List.length_drop]
          have := ih (rest.drop (runLen ff cc.style rest))
            (i + 1 + runLen ff cc.style rest)
            (by simp only [List.length_cons] at hl; omega)
            (by simp only [List.length_cons] at hi; omega)
          rwa [hlen] at this
        simp only [List.length_cons]
        omega
      · have := ih rest (i + 1)
          (by simp only [List.length_cons] at hl; omega)
          (by simp only [List.length_cons] at hi; omega)
        simp only [List.length_cons]
        omega

lemma outsLen_flatMap {α : Type} (f : α → List Out) (l : List α) :
    outsLen (l.flatMap f) = (l.map fun x => outsLen (f x)).sum := by
  induction l with
  | nil => rfl
  | cons a rest ih => simp [List.flatMap_cons, outsLen_append, ih]

/-- Claim C8: for all current/previous grids, any physical width and either
value of the full-repaint flag, the diff renderer's total output fits in the
`ensure_buffers` budget of `COLS·ROWS·64 + 4096` bytes, so the render hot
path never outgrows the pre-sized buffer.  The dimension bounds are those the
program guarantees: `ws_row`, `ws_col` are `unsigned short` (≤ 65535), so
logical columns `= ⌈cols/2⌉ ≤ 32768`. -/
theorem c8_output_fits_presized_buffer (ff : Bool) (physCols cols rows : ℕ)
    (cur prev : List Cell) (h1 : rows ≤ 65535) (h2 : cols ≤ 32768) :
    outsLen (render_diff ff physCols cols rows cur prev) ≤ cols * rows * 64 + 4096 := by
  unfold render_diff
  rw [outsLen_append]
  have hpre : outsLen (if ff then [Out.clearHome] else []) ≤ 7 := by
    split <;> simp [outsLen, outLen]
  have hbody : outsLen ((List.range rows).flatMap fun r =>
      scanRow ff physCols r 0 (List.zip (rowOf cur cols r) (rowOf prev cols r))) ≤
      rows * (28 * cols) := by
    rw [outsLen_flatMap]
    have hb : ∀ x ∈ (List.range rows).map fun r =>
        outsLen (scanRow ff physCols r 0 (List.zip (rowOf cur cols r) (rowOf prev cols r))),
        x ≤ 28 * cols := by
      intro x hx
      rw [List.mem_map] at hx
      obtain ⟨r, hr, rfl⟩ := hx
      rw [List.mem_range] at hr
      have hzlen : (List.zip (rowOf cur cols r) (rowOf prev cols r)).length ≤ cols := by
        simp only [List.length_zip, rowOf, List.length_take]
        omega
      have hsc := scanRow_outsLen ff physCols r (by omega)
        (List.zip (rowOf cur cols r) (rowOf prev cols r)).length
        (List.zip (rowOf cur cols r) (rowOf prev cols r)) 0
        le_rfl (by omega)
      calc outsLen (scanRow ff physCols r 0 (List.zip (rowOf cur cols r) (rowOf prev cols r)))
          ≤ 28 * (List.zip (rowOf cur cols r) (rowOf prev cols r)).length := hsc
        _ ≤ 28 * cols := by omega
    have hsum := List.sum_le_card_nsmul _ (28 * cols) hb
    simp only [List.length_map, List.length_range, smul_eq_mul] at hsum
    exact hsum
  have hcr : rows * (28 * cols) ≤ cols * rows * 64 := by
    have heq : rows * (28 * cols) = 28 * (cols * rows) := by ring
    have h64 : 28 * (cols * rows) ≤ 64 * (cols * rows) :=
      Nat.mul_le_mul_right _ (by norm_num)
    omega
  omega

/-- Witness for C8 at a concrete 1×1 grid with one changed cell. -/
theorem c8_output_fits_presized_buffer_witness :
    ((1 : ℕ) ≤ 65535 ∧ (1 : ℕ) ≤ 32768) ∧
    outsLen (render_diff false 2 1 1 [⟨'A', 5⟩] [⟨' ', 0⟩]) ≤ 1 * 1 * 64 + 4096 :=
  ⟨⟨by decide, by decide⟩,
    c8_output_fits_presized_buffer false 2 1 1 [⟨'A', 5⟩] [⟨' ', 0⟩] (by decide) (by decide)⟩

end Catrix
